import Mathlib

/-!
Verification development for the sensory-translation acquisition pipeline
(`pysrc/core/communication_manager.py` and `pysrc/core/audio_processor.py`).

The Python code is shallowly embedded: machine floats become `ℚ` (every
arithmetic operation the claims depend on is exact at the modelled inputs),
`collections.deque(maxlen=K)` becomes a list with an explicit eviction push,
threads become explicit state-passing step functions over finite event
traces, and fallible parsing returns `Option`.
-/

namespace Sensory

/-! ## Python string primitives

`str.strip`, `str.split(sep)` and `split(sep, 1)` are modelled over
`List Char`, matching CPython semantics (in particular
`"".split(",") = [""]`).  Python `float(s)` / `int(s)` accept optional
surrounding whitespace, an optional sign and a decimal literal; the model
covers the decimal-literal forms (digits, fraction, exponent).  The exotic
inputs Python would additionally accept (`inf`, `nan`, underscore
separators) do not occur in any claim and are outside the model.
-/

/-- Python `str.strip()`: drop whitespace from both ends. -/
def pyStrip (l : List Char) : List Char :=
  ((l.dropWhile Char.isWhitespace).reverse.dropWhile Char.isWhitespace).reverse

/-- Python `str.split(c)` for a one-character separator: always returns at
least one piece, empty pieces included. -/
def splitOnChar (c : Char) : List Char → List (List Char)
  | [] => [[]]
  | x :: xs =>
    if x = c then [] :: splitOnChar c xs
    else
      match splitOnChar c xs with
      | [] => [[x]]
      | h :: t => (x :: h) :: t

/-- The guarded first-colon split of the codec:
`if ':' in part: key, value = part.split(':', 1)`. -/
def splitFirstColon (p : List Char) : Option (List Char × List Char) :=
  match p.dropWhile (fun c => ¬ (c = ':')) with
  | ':' :: v => some (p.takeWhile (fun c => ¬ (c = ':')), v)
  | _ => none

/-- Decimal digit run to a natural number. -/
def digitsToNat (l : List Char) : Nat :=
  l.foldl (fun n c => 10 * n + (c.toNat - ('0').toNat)) 0

/-- Optional leading sign; returns the sign as a rational unit. -/
def takeSign : List Char → ℚ × List Char
  | '+' :: r => (1, r)
  | '-' :: r => (-1, r)
  | r => (1, r)

/-- Exponent suffix of a Python float literal (empty, or `e`/`E`, optional
sign, at least one digit, nothing after). Returns the signed exponent. -/
def parseExpPart : List Char → Option ℤ
  | [] => some 0
  | c :: r =>
    if c = 'e' ∨ c = 'E' then
      let (es, r1) :=
        match r with
        | '+' :: t => ((1 : ℤ), t)
        | '-' :: t => ((-1 : ℤ), t)
        | t => ((1 : ℤ), t)
      let ds := r1.takeWhile Char.isDigit
      let rest := r1.dropWhile Char.isDigit
      if ds = [] ∨ rest ≠ [] then none
      else some (es * digitsToNat ds)
    else none

/-- Python `float(s)` on a decimal literal: strip, optional sign, digits
with optional fraction and exponent; `ValueError` becomes `none`. -/
def parsePyFloat (s : List Char) : Option ℚ :=
  let t := pyStrip s
  let (sgn, t1) := takeSign t
  let ip := t1.takeWhile Char.isDigit
  let r1 := t1.dropWhile Char.isDigit
  match r1 with
  | '.' :: r2 =>
    let fp := r2.takeWhile Char.isDigit
    let r3 := r2.dropWhile Char.isDigit
    if ip = [] ∧ fp = [] then none
    else
      (parseExpPart r3).map (fun e =>
        sgn * ((digitsToNat ip : ℚ) + (digitsToNat fp : ℚ) / 10 ^ fp.length)
          * (10 : ℚ) ^ e)
  | _ =>
    if ip = [] then none
    else
      (parseExpPart r1).map (fun e =>
        sgn * (digitsToNat ip : ℚ) * (10 : ℚ) ^ e)

/-- Python `int(s)`: strip, optional sign, at least one digit, nothing
else; `ValueError` becomes `none`. -/
def parsePyInt (s : List Char) : Option ℤ :=
  let t := pyStrip s
  let (sgn, t1) := takeSign t
  let ds := t1.takeWhile Char.isDigit
  let rest := t1.dropWhile Char.isDigit
  if ds = [] ∨ rest ≠ [] then none
  else some ((if sgn = 1 then (1 : ℤ) else -1) * digitsToNat ds)

/-! ## Telemetry frame codec (`RawAudioData`, communication_manager.py:15-53) -/

/-- `RawAudioData` — the raw telemetry record built by
`RawAudioData.from_string`.  Floats are embedded as `ℚ`. -/
structure RawAudioData where
  amplitude : ℚ
  frequency_dominant : ℚ
  bass_level : ℚ
  mid_level : ℚ
  treble_level : ℚ
  beat_detected : Bool
  timestamp : ℚ
  deriving DecidableEq, Repr

/-- The `data_dict` built by the parser loop: every `KEY:VALUE` part keyed
by the text before the first colon, later duplicates overwriting earlier
ones (Python dict assignment). -/
def frameDict (parts : List (List Char)) : List (List Char × List Char) :=
  parts.filterMap splitFirstColon

/-- `data_dict.get(k)`: last binding wins. -/
def dictGet (pairs : List (List Char × List Char)) (k : List Char) :
    Option (List Char) :=
  ((pairs.filter (fun kv => kv.1 = k)).getLast?).map (fun kv => kv.2)

/-- `float(data_dict.get(k, default))`: a missing key yields the numeric
default directly (no string parse); a present value is parsed. -/
def fieldFloat (pairs : List (List Char × List Char)) (k : List Char)
    (default : ℚ) : Option ℚ :=
  match dictGet pairs k with
  | some v => parsePyFloat v
  | none => some default

/-- The six keys the codec reads. -/
def ampKey : List Char := 'A' :: 'M' :: 'P' :: []

def freqKey : List Char := 'F' :: 'R' :: 'E' :: 'Q' :: []

def bassKey : List Char := 'B' :: 'A' :: 'S' :: 'S' :: []

def midKey : List Char := 'M' :: 'I' :: 'D' :: []

def trebleKey : List Char := 'T' :: 'R' :: 'E' :: 'B' :: 'L' :: 'E' :: []

def beatKey : List Char := 'B' :: 'E' :: 'A' :: 'T' :: []

def knownKeys : List (List Char) :=
  [ampKey, freqKey, bassKey, midKey, trebleKey, beatKey]

/-- `bool(int(data_dict.get('BEAT', 0)))`. -/
def fieldBeat (pairs : List (List Char × List Char)) : Option Bool :=
  match dictGet pairs beatKey with
  | some v => (parsePyInt v).map (fun n => decide (n ≠ 0))
  | none => some false

/-- The key/value dict a given wire line gives rise to. -/
def framePairs (s : String) : List (List Char × List Char) :=
  frameDict (splitOnChar ',' (pyStrip s.data))

/-- `RawAudioData.from_string` (communication_manager.py:26-53): split the
stripped line on commas, build the key/value dict, convert each field;
any `ValueError` is caught and yields `none`.  `time.time()` is passed in
as `now`. -/
def RawAudioData.from_string (now : ℚ) (s : String) : Option RawAudioData :=
  let pairs := framePairs s
  (fieldFloat pairs ampKey 0).bind (fun amp =>
  (fieldFloat pairs freqKey 440).bind (fun freq =>
  (fieldFloat pairs bassKey 0).bind (fun bass =>
  (fieldFloat pairs midKey 0).bind (fun mid =>
  (fieldFloat pairs trebleKey 0).bind (fun treb =>
  (fieldBeat pairs).map (fun beat =>
    { amplitude := amp / 1024
      frequency_dominant := freq
      bass_level := bass / 1024
      mid_level := mid / 1024
      treble_level := treb / 1024
      beat_detected := beat
      timestamp := now }))))))

/-- The record the codec produces when no known key is present in the
line: every field from its default (`0/1024 = 0`, `FREQ` 440, no beat). -/
def defaultFrame (now : ℚ) : RawAudioData :=
  { amplitude := 0, frequency_dominant := 440, bass_level := 0,
    mid_level := 0, treble_level := 0, beat_detected := false,
    timestamp := now }

/-- The record the example line
`AMP:512,FREQ:440,BASS:256,MID:128,TREBLE:64,BEAT:1` parses to
(at arrival time 0). -/
def exampleFrame : RawAudioData :=
  { amplitude := 1/2, frequency_dominant := 440, bass_level := 1/4,
    mid_level := 1/8, treble_level := 1/16, beat_detected := true,
    timestamp := 0 }

/-! ## Bounded buffers (`collections.deque(maxlen=K)`)

`AudioProcessor` keeps `raw_buffer` and `processed_buffer` as
`deque(maxlen=buffer_size)` (audio_processor.py:75-76) and only ever
`append`s to them (audio_processor.py:99 and 142); `TempoTracker` keeps
`tempo_history = deque(maxlen=20)` (audio_processor.py:450).  A deque
append evicts from the left exactly when the deque is full. -/

/-- `deque(maxlen=K).append(x)`: append on the right, then evict the
oldest entries so that at most `K` remain. -/
def dequePush (K : Nat) (b : List α) (x : α) : List α :=
  (b ++ [x]).drop (b.length + 1 - K)

/-- Appending a whole sequence, oldest first. -/
def dequePushAll (K : Nat) (b : List α) (xs : List α) : List α :=
  xs.foldl (dequePush K) b

/-! ## Tempo tracking (`TempoTracker`, audio_processor.py:446-477) -/

/-- `np.diff`: consecutive differences. -/
def diffQ (l : List ℚ) : List ℚ :=
  List.zipWith (fun a b => b - a) l l.tail

/-- `np.mean` of a list (the call site guarantees the list is nonempty). -/
def meanQ (l : List ℚ) : ℚ := l.sum / l.length

/-- `np.median`: sort; middle element for odd length, average of the two
middle elements for even length (call sites pass nonempty lists). -/
def medianQ (l : List ℚ) : ℚ :=
  let s := l.insertionSort (fun a b => a ≤ b)
  if l.length % 2 = 1 then s.getD (l.length / 2) 0
  else (s.getD (l.length / 2 - 1) 0 + s.getD (l.length / 2) 0) / 2

/-- `TempoTracker.calculate_tempo` (audio_processor.py:452-477).  The
`tempo_history` deque (maxlen 20) is passed and returned explicitly;
the first component is the returned BPM. -/
def TempoTracker.calculate_tempo (tempo_history : List ℚ)
    (beat_times : List ℚ) : ℚ × List ℚ :=
  if beat_times.length < 2 then (0, tempo_history)
  else
    let intervals := diffQ beat_times
    if intervals.length = 0 then (0, tempo_history)
    else
      let valid_intervals := intervals.filter (fun i => 3/10 < i ∧ i < 3)
      if valid_intervals.length = 0 then (0, tempo_history)
      else
        let avg_interval := meanQ valid_intervals
        let bpm := 60 / avg_interval
        let hist2 := dequePush 20 tempo_history bpm
        (medianQ hist2, hist2)

/-! ## Envelope state machine (`EnvelopeAnalyzer`, audio_processor.py:480-529) -/

inductive EnvPhase where
  | attack
  | decay
  | release
  deriving DecidableEq, Repr

/-- The persistent fields of `EnvelopeAnalyzer` (audio_processor.py:483-487). -/
structure EnvelopeAnalyzer where
  envelope_state : EnvPhase
  peak_amplitude : ℚ
  attack_start : ℚ
  release_start : ℚ
  deriving DecidableEq, Repr

/-- `EnvelopeAnalyzer.__init__`: state `release`, zeroed peak and times. -/
def EnvelopeAnalyzer.init : EnvelopeAnalyzer :=
  { envelope_state := .release, peak_amplitude := 0, attack_start := 0,
    release_start := 0 }

/-- The per-cycle ADSR feature dictionary returned by `analyze`. -/
structure EnvFeatures where
  attack_time : ℚ
  decay_time : ℚ
  sustain_level : ℚ
  release_time : ℚ
  deriving DecidableEq, Repr

/-- Python `max` of a list; the single call site passes 9 elements, so
the empty case (a `ValueError` in Python) is unreachable. -/
def pyMax : List ℚ → ℚ
  | [] => 0
  | h :: t => t.foldl max h

/-- `EnvelopeAnalyzer.analyze` (audio_processor.py:489-529): when at
least 10 history samples exist, run the attack / decay / release
`elif` chain on the last-10 window (the last window entry is the current
sample, as assembled by `_processing_loop`); otherwise leave the state
untouched.  Literal constants: `1.2 = 6/5`, `0.9 = 9/10`, `0.1 = 1/10`. -/
def EnvelopeAnalyzer.analyze (st : EnvelopeAnalyzer) (current : RawAudioData)
    (history : List RawAudioData) : EnvelopeAnalyzer × EnvFeatures :=
  let sustain_level := current.amplitude
  if 10 ≤ history.length then
    let last10 := history.drop (history.length - 10)
    let amplitudes := last10.map (fun d => d.amplitude)
    let times := last10.map (fun d => d.timestamp)
    if pyMax amplitudes.dropLast * (6/5) < current.amplitude then
      let attack_samples :=
        (amplitudes.filter (fun a => a < current.amplitude * (9/10))).length
      let attack_time :=
        if attack_samples < times.length then
          times.getLast?.getD 0 - times.getD (times.length - (attack_samples + 1)) 0
        else 0
      ({ st with envelope_state := .attack, attack_start := current.timestamp,
                 peak_amplitude := current.amplitude },
       ⟨attack_time, 0, sustain_level, 0⟩)
    else if st.envelope_state = .attack ∧
        current.amplitude < st.peak_amplitude * (9/10) then
      ({ st with envelope_state := .decay }, ⟨0, 0, sustain_level, 0⟩)
    else if current.amplitude < 1/10 then
      if st.envelope_state ≠ .release then
        ({ st with envelope_state := .release,
                   release_start := current.timestamp },
         ⟨0, 0, sustain_level, 0⟩)
      else (st, ⟨0, 0, sustain_level, 0⟩)
    else (st, ⟨0, 0, sustain_level, 0⟩)
  else (st, ⟨0, 0, sustain_level, 0⟩)

/-! ## Feature-engine worker cycle (`AudioProcessor._processing_loop`,
audio_processor.py:119-158) -/

/-- Control outcome of one worker-loop iteration. -/
structure CycleResult where
  produced : Bool
  sleep_duration : ℚ
  deriving DecidableEq, Repr

/-- One iteration of `_processing_loop`: fewer than 2 buffered raw items
idles for `0.001` s and produces nothing; otherwise a snapshot is
produced and the loop sleeps `max(0, 0.01 - processing_time)`, where
`processing_time` is the measured wall-clock cost of the cycle. -/
def AudioProcessor.processing_cycle (raw_len : Nat) (processing_time : ℚ) :
    CycleResult :=
  if raw_len < 2 then { produced := false, sleep_duration := 1/1000 }
  else { produced := true, sleep_duration := max 0 (1/100 - processing_time) }

/-! ## Serial link manager (`CommunicationManager`,
communication_manager.py:56-326) -/

/-- The manager fields the claims depend on.  `serial_open` stands for
`serial_connection is not None`. -/
structure CommunicationManager where
  is_connected : Bool
  is_reading : Bool
  serial_open : Bool
  stop_event : Bool
  bytes_received : Nat
  packets_received : Nat
  packets_lost : Nat
  last_packet_time : ℚ
  deriving DecidableEq, Repr

/-- Manager state right after a successful `connect()` and
`start_reading()`: connected, reading, stop event cleared, all
statistics at their `__init__` zeros. -/
def CommunicationManager.initReading : CommunicationManager :=
  { is_connected := true, is_reading := true, serial_open := true,
    stop_event := false, bytes_received := 0, packets_received := 0,
    packets_lost := 0, last_packet_time := 0 }

/-- `CommunicationManager.disconnect` (communication_manager.py:289-320):
if reading, clear `is_reading` and set the stop event (the thread join
and the guarded `serial.close()` do not change these fields); then drop
the connection flag and the serial handle.  Every exception inside is
caught, so the function is total. -/
def CommunicationManager.disconnect (s : CommunicationManager) :
    CommunicationManager :=
  let s1 := if s.is_reading then
      { s with is_reading := false, stop_event := true }
    else s
  { s1 with is_connected := false, serial_open := false }

/-- `packet_loss_rate` from `get_statistics`
(communication_manager.py:284): `packets_lost / max(packets_received +
packets_lost, 1)`. -/
def CommunicationManager.packet_loss_rate (s : CommunicationManager) : ℚ :=
  (s.packets_lost : ℚ) / max ((s.packets_received : ℚ) + (s.packets_lost : ℚ)) 1

/-- One observable event inside `_read_loop`: a full line became
available (with the wall-clock time of its arrival), no data was
waiting, or the read raised a `SerialException`-style transport error. -/
inductive LinkEvent where
  | line (s : String) (now : ℚ)
  | noData
  | transportError
  deriving DecidableEq, Repr

/-- One iteration of the `_read_loop` body
(communication_manager.py:202-258) on one event.  Returns the new
manager state, the new `consecutive_errors` counter and whether the
iteration hit the `max_consecutive_errors = 10` ceiling and broke out
of the loop.  On a parsed packet the expected-interval loss heuristic
(lines 218-224) runs before the counters are updated; a failed parse
counts one lost packet and leaves `consecutive_errors` unchanged. -/
def readStep (s : CommunicationManager) (errs : Nat) (e : LinkEvent) :
    CommunicationManager × Nat × Bool :=
  match e with
  | .line str now =>
    if pyStrip str.data ≠ [] then
      let s := { s with bytes_received := s.bytes_received + str.length }
      match RawAudioData.from_string now str with
      | some _ =>
        let time_diff := now - s.last_packet_time
        let expected_packets : ℤ := ⌊time_diff / (1/50)⌋
        let s :=
          if (0 : ℚ) < s.last_packet_time ∧ (1 : ℚ)/10 < time_diff ∧
              (2 : ℤ) < expected_packets
          then { s with packets_lost := s.packets_lost + (expected_packets - 1).toNat }
          else s
        ({ s with last_packet_time := now,
                  packets_received := s.packets_received + 1 }, 0, false)
      | none => ({ s with packets_lost := s.packets_lost + 1 }, errs, false)
    else (s, errs, false)
  | .noData => (s, errs, false)
  | .transportError => (s, errs + 1, decide (10 ≤ errs + 1))

/-- `_read_loop` over a finite event trace: check the
`while not stop_event and is_reading` condition, process one event,
stop when the error ceiling breaks the loop.  The second component is
true exactly when the loop exited through the consecutive-error break. -/
def readLoop : CommunicationManager → Nat → List LinkEvent →
    CommunicationManager × Bool
  | s, _, [] => (s, false)
  | s, errs, e :: rest =>
    if s.stop_event ∨ s.is_reading = false then (s, false)
    else
      let r := readStep s errs e
      if r.2.2 then (r.1, true) else readLoop r.1 r.2.1 rest

/-! ## Synthetic inputs used by the scenario claims -/

/-- A telemetry frame with the given amplitude and timestamp (the other
fields are irrelevant to the envelope analyzer). -/
def rampFrame (a t : ℚ) : RawAudioData :=
  { amplitude := a, frequency_dominant := 440, bass_level := 0,
    mid_level := 0, treble_level := 0, beat_detected := false,
    timestamp := t }

/-- A synthetic amplitude ramp: quiet floor, a sharp rise, then a fall
below the release floor. -/
def envRampAmps : List ℚ :=
  [1/10, 1/10, 1/10, 1/10, 1/10, 1/10, 1/10, 1/10, 1/10, 1/2, 2/5, 1/20]

/-- The per-cycle (current sample, history) inputs the engine hands the
envelope analyzer while the ramp streams in: at cycle `i` the history is
the first `i+1` samples and the current sample is the last of them
(audio_processor.py:131-138). -/
def envRampInputs : List (RawAudioData × List RawAudioData) :=
  (List.range envRampAmps.length).map (fun i =>
    (rampFrame (envRampAmps.getD i 0) i,
     (List.range (i + 1)).map (fun j => rampFrame (envRampAmps.getD j 0) j)))

/-- The envelope state after each cycle of the ramp, starting from the
analyzer's initial state. -/
def envRampPhases : List EnvPhase :=
  (envRampInputs.foldl
    (fun (acc : EnvelopeAnalyzer × List EnvPhase) ce =>
      let r := acc.1.analyze ce.1 ce.2
      (r.1, acc.2 ++ [r.1.envelope_state]))
    (EnvelopeAnalyzer.init, [])).2

/-- An analyzer that is mid-attack on a loud peak (peak amplitude 1). -/
def envAttackState : EnvelopeAnalyzer :=
  { envelope_state := .attack, peak_amplitude := 1, attack_start := 0,
    release_start := 0 }

/-- A quiet current sample, well below the 0.1 release floor. -/
def envQuietCur : RawAudioData := rampFrame (1/20) 10

/-- History of ten loud samples followed by the quiet current one. -/
def envQuietHist : List RawAudioData :=
  (List.range 10).map (fun j => rampFrame 1 j) ++ [envQuietCur]

/-- The attack-entry condition of the envelope analyzer
(audio_processor.py:504): current amplitude exceeds 1.2 times the
maximum of the previous samples in the last-10 window. -/
def attackCond (cur : RawAudioData) (history : List RawAudioData) : Prop :=
  pyMax (((history.drop (history.length - 10)).map
    (fun d => d.amplitude)).dropLast) * (6/5) < cur.amplitude

/-- Beat timestamps at a constant spacing `d` starting at `t0`. -/
def constBeats (t0 d : ℚ) : ℕ → List ℚ
  | 0 => []
  | n + 1 => t0 :: constBeats (t0 + d) d n

/-- A whole sequence of `calculate_tempo` calls threading the
`tempo_history` deque through, as `_analyze_rhythm` does once per engine
cycle; returns the list of returned BPM values and the final history. -/
def tempoRun : List ℚ → List (List ℚ) → List ℚ × List ℚ
  | hist, [] => ([], hist)
  | hist, beats :: rest =>
    let r := TempoTracker.calculate_tempo hist beats
    let rr := tempoRun r.2 rest
    (r.1 :: rr.1, rr.2)

/-! ## Deque lemmas -/

theorem dequePush_length {α : Type} (K : Nat) (b : List α) (x : α) :
    (dequePush K b x).length = min (b.length + 1) K := by
  simp [dequePush]
  omega

theorem dequePushAll_eq_drop {α : Type} (K : Nat) (xs : List α) :
    ∀ b : List α, b.length ≤ K →
      dequePushAll K b xs = (b ++ xs).drop (b.length + xs.length - K) := by
  induction xs with
  | nil =>
    intro b hb
    simp [dequePushAll, Nat.sub_eq_zero_of_le hb]
  | cons x xs ih =>
    intro b hb
    have hp : (dequePush K b x).length ≤ K := by
      rw [dequePush_length]; omega
    have hstep : dequePushAll K b (x :: xs) = dequePushAll K (dequePush K b x) xs := rfl
    rw [hstep, ih _ hp, dequePush_length]
    unfold dequePush
    rw [← List.drop_append_of_le_length (by simp), List.drop_drop]
    rw [show b ++ [x] ++ xs = b ++ x :: xs by simp]
    congr 1
    simp
    omega

theorem dequePushAll_length_le {α : Type} (K : Nat) (b : List α)
    (hb : b.length ≤ K) (xs : List α) : (dequePushAll K b xs).length ≤ K := by
  rw [dequePushAll_eq_drop K xs b hb]
  simp
  omega

/-- C4: a bounded buffer of capacity `K` (the deques backing
`AudioProcessor.add_data` and `_processing_loop`) never exceeds `K`
entries after a push, and once `K + 1` or more items have been pushed it
holds exactly the most recent `K` of them in push order (oldest-first
eviction). -/
theorem C4_bounded_buffer {α : Type} (K : Nat) (b : List α)
    (hb : b.length ≤ K) (x : α) (xs : List α) :
    (dequePush K b x).length ≤ K ∧
    (dequePushAll K b xs).length ≤ K ∧
    (K + 1 ≤ xs.length → dequePushAll K b xs = xs.drop (xs.length - K)) := by
  refine ⟨by rw [dequePush_length]; omega, dequePushAll_length_le K b hb xs, ?_⟩
  intro h
  rw [dequePushAll_eq_drop K xs b hb,
    show b.length + xs.length - K = b.length + (xs.length - K) by omega,
    List.drop_append]

/-- Witness for C4 at `K = 3` on five pushes into an empty buffer. -/
theorem C4_bounded_buffer_witness :
    (dequePush 3 ([] : List ℚ) 7).length ≤ 3 ∧
    (dequePushAll 3 ([] : List ℚ) [1, 2, 3, 4, 5]).length ≤ 3 ∧
    dequePushAll 3 ([] : List ℚ) [1, 2, 3, 4, 5] = [3, 4, 5] := by
  have h := C4_bounded_buffer 3 ([] : List ℚ) (by decide) 7 [1, 2, 3, 4, 5]
  refine ⟨h.1, h.2.1, ?_⟩
  rw [h.2.2 (by decide)]
  with_unfolding_all decide

/-! ## Worker-loop pacing -/

/-- C7: in every worker-loop iteration, fewer than 2 buffered raw items
idles for 0.001 s without producing a snapshot; otherwise a snapshot is
produced and the loop sleeps `max(0, 0.01 - cost)`; the slept duration
is never negative. -/
theorem C7_processing_cycle (raw_len : Nat) (processing_time : ℚ) :
    0 ≤ (AudioProcessor.processing_cycle raw_len processing_time).sleep_duration ∧
    (raw_len < 2 →
      AudioProcessor.processing_cycle raw_len processing_time =
        { produced := false, sleep_duration := 1/1000 }) ∧
    (2 ≤ raw_len →
      (AudioProcessor.processing_cycle raw_len processing_time).produced = true ∧
      (AudioProcessor.processing_cycle raw_len processing_time).sleep_duration =
        max 0 (1/100 - processing_time)) := by
  unfold AudioProcessor.processing_cycle
  refine ⟨?_, ?_, ?_⟩
  · split
    · norm_num
    · exact le_max_left 0 _
  · intro h
    rw [if_pos h]
  · intro h
    rw [if_neg (by omega)]
    exact ⟨rfl, rfl⟩

/-- Witness for C7: a starved cycle (1 buffered item) idles, and an
overlong cycle (cost 2 s > budget) still sleeps a non-negative time. -/
theorem C7_processing_cycle_witness :
    AudioProcessor.processing_cycle 1 0 =
      { produced := false, sleep_duration := 1/1000 } ∧
    0 ≤ (AudioProcessor.processing_cycle 5 2).sleep_duration ∧
    (AudioProcessor.processing_cycle 5 2).produced = true :=
  ⟨(C7_processing_cycle 1 0).2.1 (by norm_num),
   (C7_processing_cycle 5 2).1,
   ((C7_processing_cycle 5 2).2.2 (by norm_num)).1⟩

/-! ## Disconnect idempotence -/

/-- C8: `disconnect()` is idempotent — a second call on the
already-disconnected state changes nothing (and, being total, never
raises). -/
theorem C8_disconnect_idempotent (s : CommunicationManager) :
    s.disconnect.disconnect = s.disconnect := by
  cases s with
  | mk c r so st by_ pr pl lt =>
    cases r <;> simp [CommunicationManager.disconnect]

/-! ## Read-loop fail-stop (C3) -/

/-- C3 counterexample: after exactly 10 consecutive transport errors the
reader loop does break out (the thread terminates), but the connection
state does not revert to Disconnected — `is_reading` and `is_connected`
are still true, contradicting the claim. -/
theorem C3_counterexample :
    (readLoop CommunicationManager.initReading 0
      (List.replicate 10 LinkEvent.transportError)).2 = true ∧
    (readLoop CommunicationManager.initReading 0
      (List.replicate 10 LinkEvent.transportError)).1.is_reading = true ∧
    (readLoop CommunicationManager.initReading 0
      (List.replicate 10 LinkEvent.transportError)).1.is_connected = true := by
  with_unfolding_all decide

/-- C3 amended: when the consecutive transport-error count reaches the
ceiling of 10, the reader loop terminates itself (fail-stop, ignoring
any later events), but it leaves `is_reading`/`is_connected` untouched;
the `Disconnected` state is only established by a subsequent
`disconnect()` call. -/
theorem C3_amended (s : CommunicationManager) (rest : List LinkEvent)
    (hstop : s.stop_event = false) (hread : s.is_reading = true) :
    readLoop s 0
      (.transportError :: .transportError :: .transportError ::
       .transportError :: .transportError :: .transportError ::
       .transportError :: .transportError :: .transportError ::
       .transportError :: rest) = (s, true) ∧
    s.disconnect.is_reading = false ∧
    s.disconnect.is_connected = false := by
  refine ⟨?_, ?_, ?_⟩
  · simp [readLoop, readStep, hstop, hread]
  · simp [CommunicationManager.disconnect, hread]
  · simp [CommunicationManager.disconnect]

/-- Witness for C3 amended, from the fresh reading state. -/
theorem C3_amended_witness :
    readLoop CommunicationManager.initReading 0
      (.transportError :: .transportError :: .transportError ::
       .transportError :: .transportError :: .transportError ::
       .transportError :: .transportError :: .transportError ::
       .transportError :: []) = (CommunicationManager.initReading, true) ∧
    CommunicationManager.initReading.disconnect.is_reading = false ∧
    CommunicationManager.initReading.disconnect.is_connected = false :=
  C3_amended CommunicationManager.initReading [] rfl rfl

/-! ## Packet-loss rate (C10) -/

/-- C10 counterexample: one reachable step — a single line with a
non-numeric `AMP` value — puts the statistics at
`packets_received = 0, packets_lost = 1`, where the loss rate equals 1,
so the rate is not always inside `[0, 1)`. -/
theorem C10_counterexample :
    (readLoop CommunicationManager.initReading 0
      [LinkEvent.line ("AMP:abc") 0]).1.packet_loss_rate = 1 ∧
    ¬ (readLoop CommunicationManager.initReading 0
      [LinkEvent.line ("AMP:abc") 0]).1.packet_loss_rate < 1 := by
  with_unfolding_all decide

/-- C10 amended: `packet_loss_rate` is always well defined and lies in
the closed interval `[0, 1]`: the divisor `max(received + lost, 1)`
never vanishes, both counters at 0 give rate 0, and the rate reaches 1
exactly when packets were lost before any was received. -/
theorem C10_amended (s : CommunicationManager) :
    0 ≤ s.packet_loss_rate ∧ s.packet_loss_rate ≤ 1 ∧
    (s.packets_received = 0 ∧ s.packets_lost = 0 → s.packet_loss_rate = 0) ∧
    (s.packet_loss_rate = 1 ↔ s.packets_received = 0 ∧ 0 < s.packets_lost) := by
  unfold CommunicationManager.packet_loss_rate
  have hR : (0 : ℚ) ≤ (s.packets_received : ℚ) := Nat.cast_nonneg _
  have hL : (0 : ℚ) ≤ (s.packets_lost : ℚ) := Nat.cast_nonneg _
  have hD1 : (1 : ℚ) ≤ max ((s.packets_received : ℚ) + (s.packets_lost : ℚ)) 1 :=
    le_max_right _ _
  have hD0 : (0 : ℚ) < max ((s.packets_received : ℚ) + (s.packets_lost : ℚ)) 1 :=
    lt_of_lt_of_le one_pos hD1
  have hLD : (s.packets_lost : ℚ) ≤
      max ((s.packets_received : ℚ) + (s.packets_lost : ℚ)) 1 :=
    le_trans (by linarith) (le_max_left _ _)
  refine ⟨div_nonneg hL (le_of_lt hD0), (div_le_one hD0).mpr hLD, ?_, ?_⟩
  · rintro ⟨h1, h2⟩
    rw [h2]
    simp
  · constructor
    · intro h
      have hEq : (s.packets_lost : ℚ) =
          max ((s.packets_received : ℚ) + (s.packets_lost : ℚ)) 1 :=
        (div_eq_one_iff_eq (ne_of_gt hD0)).mp h
      have h1L : (1 : ℚ) ≤ (s.packets_lost : ℚ) := hEq ▸ hD1
      have hmax : max ((s.packets_received : ℚ) + (s.packets_lost : ℚ)) 1 =
          (s.packets_received : ℚ) + (s.packets_lost : ℚ) :=
        max_eq_left (by linarith)
      rw [hmax] at hEq
      have hR0 : (s.packets_received : ℚ) = 0 := by linarith
      constructor
      · exact_mod_cast hR0
      · by_contra hc
        have : s.packets_lost = 0 := by omega
        rw [this] at h1L
        norm_num at h1L
    · rintro ⟨h1, h2⟩
      have h1Q : (s.packets_received : ℚ) = 0 := by exact_mod_cast h1
      have h2Q : (1 : ℚ) ≤ (s.packets_lost : ℚ) := by exact_mod_cast h2
      rw [h1Q, zero_add, max_eq_left h2Q]
      exact div_self (by linarith)

/-- Witness for C10 amended at the freshly-connected state (rate 0). -/
theorem C10_amended_witness :
    0 ≤ CommunicationManager.initReading.packet_loss_rate ∧
    CommunicationManager.initReading.packet_loss_rate = 0 :=
  ⟨(C10_amended CommunicationManager.initReading).1,
   (C10_amended CommunicationManager.initReading).2.2.1 ⟨rfl, rfl⟩⟩

/-! ## Tempo lemmas (C5, C9) -/

theorem constBeats_length (d : ℚ) : ∀ (n : ℕ) (t0 : ℚ),
    (constBeats t0 d n).length = n := by
  intro n
  induction n with
  | zero => intro t0; rfl
  | succ n ih => intro t0; simp [constBeats, ih]

theorem diffQ_constBeats (d : ℚ) : ∀ (n : ℕ) (t0 : ℚ),
    diffQ (constBeats t0 d n) = List.replicate (n - 1) d := by
  intro n
  induction n with
  | zero => intro t0; rfl
  | succ n ih =>
    intro t0
    cases n with
    | zero => rfl
    | succ m =>
      have h1 : diffQ (constBeats t0 d (m + 2)) =
          (t0 + d - t0) :: diffQ (constBeats (t0 + d) d (m + 1)) := rfl
      rw [h1, ih (t0 + d), show t0 + d - t0 = d by ring]
      simp [List.replicate_succ]

theorem meanQ_replicate (m : ℕ) (hm : m ≠ 0) (x : ℚ) :
    meanQ (List.replicate m x) = x := by
  unfold meanQ
  rw [List.sum_replicate, List.length_replicate, nsmul_eq_mul]
  have : (m : ℚ) ≠ 0 := Nat.cast_ne_zero.mpr hm
  field_simp

theorem list_sum_bounds (a b : ℚ) : ∀ (l : List ℚ), l ≠ [] →
    (∀ x ∈ l, a < x ∧ x < b) →
    (l.length : ℚ) * a < l.sum ∧ l.sum < (l.length : ℚ) * b := by
  intro l
  induction l with
  | nil => intro h; exact absurd rfl h
  | cons x xs ih =>
    intro _ h
    have hx := h x (List.mem_cons_self x xs)
    cases xs with
    | nil => simpa using hx
    | cons y ys =>
      have hrest := ih (by simp) (fun z hz => h z (List.mem_cons_of_mem x hz))
      rw [List.sum_cons, List.length_cons]
      push_cast
      push_cast at hrest
      constructor <;> nlinarith [hrest.1, hrest.2, hx.1, hx.2]

theorem meanQ_bounds (a b : ℚ) (l : List ℚ) (hne : l ≠ [])
    (h : ∀ x ∈ l, a < x ∧ x < b) : a < meanQ l ∧ meanQ l < b := by
  have hlen : 0 < l.length := List.length_pos.mpr hne
  have hlenQ : (0 : ℚ) < (l.length : ℚ) := by exact_mod_cast hlen
  have hs := list_sum_bounds a b l hne h
  unfold meanQ
  constructor
  · rw [lt_div_iff hlenQ]
    linarith [hs.1]
  · rw [div_lt_iff hlenQ]
    linarith [hs.2]

theorem medianQ_bounds (a b : ℚ) (l : List ℚ) (hne : l ≠ [])
    (h : ∀ x ∈ l, a < x ∧ x < b) : a < medianQ l ∧ medianQ l < b := by
  have hlen0 : 0 < l.length := List.length_pos.mpr hne
  have hslen : (l.insertionSort (fun x y => x ≤ y)).length = l.length :=
    List.length_insertionSort _ l
  have hmem : ∀ i, i < l.length →
      a < (l.insertionSort (fun x y => x ≤ y)).getD i 0 ∧
        (l.insertionSort (fun x y => x ≤ y)).getD i 0 < b := by
    intro i hi
    have hi2 : i < (l.insertionSort (fun x y => x ≤ y)).length := by omega
    rw [List.getD_eq_get _ _ hi2]
    exact h _ ((List.perm_insertionSort _ l).mem_iff.mp (List.get_mem _ _ _))
  simp only [medianQ]
  split_ifs with hodd
  · exact hmem _ (by omega)
  · have h1 := hmem (l.length / 2 - 1) (by omega)
    have h2 := hmem (l.length / 2) (by omega)
    constructor <;> linarith [h1.1, h1.2, h2.1, h2.2]

/-- One `calculate_tempo` call returns 0 or a BPM strictly inside
(20, 200), and keeps every history entry strictly inside (20, 200). -/
theorem calculate_tempo_step (hist beats : List ℚ)
    (hinv : ∀ x ∈ hist, 20 < x ∧ x < 200) :
    ((TempoTracker.calculate_tempo hist beats).1 = 0 ∨
      (20 < (TempoTracker.calculate_tempo hist beats).1 ∧
        (TempoTracker.calculate_tempo hist beats).1 < 200)) ∧
    (∀ x ∈ (TempoTracker.calculate_tempo hist beats).2,
      20 < x ∧ x < 200) := by
  simp only [TempoTracker.calculate_tempo]
  split_ifs with h1 h2 h3
  · exact ⟨Or.inl rfl, hinv⟩
  · exact ⟨Or.inl rfl, hinv⟩
  · exact ⟨Or.inl rfl, hinv⟩
  · set v := (diffQ beats).filter (fun i => 3/10 < i ∧ i < 3) with hvdef
    have hvne : v ≠ [] := by
      intro hc
      rw [hc] at h3
      simp at h3
    have hval : ∀ x ∈ v, (3 : ℚ)/10 < x ∧ x < 3 := by
      intro x hx
      have hm := List.mem_filter.mp hx
      exact of_decide_eq_true hm.2
    have hmean := meanQ_bounds (3/10) 3 v hvne hval
    have hm0 : 0 < meanQ v := lt_trans (by norm_num) hmean.1
    have hbpm : 20 < 60 / meanQ v ∧ 60 / meanQ v < 200 := by
      constructor
      · have := div_lt_div_of_pos_left (show (0:ℚ) < 60 by norm_num) hm0 hmean.2
        rw [show (60:ℚ)/3 = 20 by norm_num] at this
        exact this
      · have := div_lt_div_of_pos_left (show (0:ℚ) < 60 by norm_num)
          (show (0:ℚ) < 3/10 by norm_num) hmean.1
        rw [show (60:ℚ)/(3/10) = 200 by norm_num] at this
        exact this
    have hmem2 : ∀ x ∈ dequePush 20 hist (60 / meanQ v), 20 < x ∧ x < 200 := by
      intro x hx
      have hx2 := List.mem_of_mem_drop hx
      rcases List.mem_append.mp hx2 with hmem | hmem
      · exact hinv x hmem
      · rw [List.mem_singleton.mp hmem]
        exact hbpm
    have hne2 : dequePush 20 hist (60 / meanQ v) ≠ [] := by
      intro hc
      have := congrArg List.length hc
      rw [dequePush_length] at this
      simp at this
    exact ⟨Or.inr (medianQ_bounds 20 200 _ hne2 hmem2), hmem2⟩

/-- C5: `calculate_tempo` returns 0 with fewer than 2 beats or no
plausible (0.3 s, 3 s) interval; otherwise it returns the median of the
last-20 history after appending 60 / (mean of the plausible intervals);
beats at constant 0.5 s spacing (4 or more) give exactly 120 BPM, and a
0.05 s outlier interval among 0.5 s intervals is filtered out, still
giving 120 BPM. -/
theorem C5_calculate_tempo :
    (∀ hist beats : List ℚ, beats.length < 2 →
      (TempoTracker.calculate_tempo hist beats).1 = 0) ∧
    (∀ hist beats : List ℚ,
      (diffQ beats).filter (fun i => 3/10 < i ∧ i < 3) = [] →
      (TempoTracker.calculate_tempo hist beats).1 = 0) ∧
    (∀ hist beats : List ℚ, ¬ beats.length < 2 →
      (diffQ beats).filter (fun i => 3/10 < i ∧ i < 3) ≠ [] →
      (TempoTracker.calculate_tempo hist beats).1 =
        medianQ (dequePush 20 hist
          (60 / meanQ ((diffQ beats).filter (fun i => 3/10 < i ∧ i < 3))))) ∧
    (∀ (n : ℕ) (t0 : ℚ), 4 ≤ n →
      (TempoTracker.calculate_tempo [] (constBeats t0 (1/2) n)).1 = 120) ∧
    (TempoTracker.calculate_tempo []
      [0, 1/2, 1, 21/20, 31/20, 41/20]).1 = 120 := by
  have hzero2 : ∀ hist beats : List ℚ,
      (diffQ beats).filter (fun i => 3/10 < i ∧ i < 3) = [] →
      (TempoTracker.calculate_tempo hist beats).1 = 0 := by
    intro hist beats h
    simp only [TempoTracker.calculate_tempo]
    by_cases h1 : beats.length < 2
    · rw [if_pos h1]
    · rw [if_neg h1]
      by_cases h2 : (diffQ beats).length = 0
      · rw [if_pos h2]
      · rw [if_neg h2, if_pos (by rw [h]; rfl)]
  refine ⟨?_, hzero2, ?_, ?_, ?_⟩
  · intro hist beats h
    simp only [TempoTracker.calculate_tempo]
    rw [if_pos h]
  · intro hist beats h1 h2
    simp only [TempoTracker.calculate_tempo]
    rw [if_neg h1, if_neg ?hdiff, if_neg ?hfil]
    case hdiff =>
      intro hc
      exact h2 (by rw [List.length_eq_zero.mp hc]; rfl)
    case hfil =>
      intro hc
      exact h2 (List.length_eq_zero.mp hc)
  · intro n t0 hn
    have hlen := constBeats_length (1/2) n t0
    have hd := diffQ_constBeats (1/2) n t0
    have hv : (diffQ (constBeats t0 (1/2) n)).filter
        (fun i => 3/10 < i ∧ i < 3) = List.replicate (n - 1) (1/2) := by
      rw [hd, List.filter_replicate, if_pos (by norm_num)]
    simp only [TempoTracker.calculate_tempo]
    rw [if_neg (by rw [hlen]; omega), if_neg ?h2, if_neg ?h3]
    case h2 =>
      rw [hd, List.length_replicate]
      omega
    case h3 =>
      rw [hv, List.length_replicate]
      omega
    rw [hv, meanQ_replicate (n - 1) (by omega) (1/2),
      show (60:ℚ) / (1/2) = 120 by norm_num]
    rfl
  · with_unfolding_all decide

/-- Witness for C5: too few beats return 0, and four beats at 0.5 s
spacing return exactly 120 (within the claimed ±2). -/
theorem C5_calculate_tempo_witness :
    (TempoTracker.calculate_tempo [] [0]).1 = 0 ∧
    (TempoTracker.calculate_tempo [] (constBeats 0 (1/2) 4)).1 = 120 :=
  ⟨C5_calculate_tempo.1 [] [0] (by decide),
   C5_calculate_tempo.2.2.2.1 4 0 (by decide)⟩

/-- C9: across every sequence of `calculate_tempo` calls starting from
the fresh tracker, every returned value is either exactly 0 or lies
strictly between 20 and 200 BPM. -/
theorem C9_tempo_output_range (calls : List (List ℚ)) :
    ∀ r ∈ (tempoRun [] calls).1, r = 0 ∨ (20 < r ∧ r < 200) := by
  suffices h : ∀ (hist : List ℚ), (∀ x ∈ hist, 20 < x ∧ x < 200) →
      ∀ r ∈ (tempoRun hist calls).1, r = 0 ∨ (20 < r ∧ r < 200) by
    exact h [] (by simp)
  induction calls with
  | nil =>
    intro hist _ r hr
    simp [tempoRun] at hr
  | cons beats rest ih =>
    intro hist hinv r hr
    simp only [tempoRun] at hr
    have hstep := calculate_tempo_step hist beats hinv
    rcases List.mem_cons.mp hr with hr1 | hr2
    · rw [hr1]
      exact hstep.1
    · exact ih _ hstep.2 r hr2

/-- Witness for C9 on one call with three beats at 0.5 s spacing. -/
theorem C9_tempo_output_range_witness :
    (120 : ℚ) = 0 ∨ ((20 : ℚ) < 120 ∧ (120 : ℚ) < 200) :=
  C9_tempo_output_range [[0, 1/2, 1]] 120 (by with_unfolding_all decide)

/-! ## Envelope state machine (C6) -/

/-- C6 counterexample: with the analyzer mid-attack on a peak of 1 and
the amplitude dropping to 0.05 (below the 0.1 floor, state not Release),
the machine moves to Decay, not Release — the decay rule sits earlier in
the `elif` chain, so the rule that the machine moves to Release whenever
amplitude < 0.1 and the state was not Release fails. -/
theorem C6_counterexample :
    envQuietCur.amplitude < 1/10 ∧
    envAttackState.envelope_state ≠ .release ∧
    (envAttackState.analyze envQuietCur envQuietHist).1.envelope_state =
      EnvPhase.decay := by
  with_unfolding_all decide

/-- C6 amended: the three transition rules are evaluated in priority
order — Attack entry first, then Attack→Decay, and the Release
transition fires only when neither earlier rule does; Attack is never
entered (in particular never from Release) without the current
amplitude exceeding 1.2× the prior local maximum; the synthetic ramp
visits Attack, Decay, Release in that order; analyzer state persists
(it is only this step function that updates it). -/
theorem C6_amended (st : EnvelopeAnalyzer) (cur : RawAudioData)
    (hist : List RawAudioData) (h10 : 10 ≤ hist.length) :
    (attackCond cur hist →
      (st.analyze cur hist).1.envelope_state = .attack ∧
      (st.analyze cur hist).1.peak_amplitude = cur.amplitude ∧
      (st.analyze cur hist).1.attack_start = cur.timestamp) ∧
    (¬ attackCond cur hist → st.envelope_state = .attack →
      cur.amplitude < st.peak_amplitude * (9/10) →
      (st.analyze cur hist).1.envelope_state = .decay) ∧
    (¬ attackCond cur hist →
      ¬ (st.envelope_state = .attack ∧
          cur.amplitude < st.peak_amplitude * (9/10)) →
      cur.amplitude < 1/10 → st.envelope_state ≠ .release →
      (st.analyze cur hist).1.envelope_state = .release ∧
      (st.analyze cur hist).1.release_start = cur.timestamp) ∧
    ((st.analyze cur hist).1.envelope_state = .attack →
      st.envelope_state = .attack ∨ attackCond cur hist) ∧
    envRampPhases = [.release, .release, .release, .release, .release,
      .release, .release, .release, .release, .attack, .decay, .release] := by
  refine ⟨?_, ?_, ?_, ?_, by with_unfolding_all decide⟩
  · intro hA
    unfold attackCond at hA
    simp only [EnvelopeAnalyzer.analyze]
    rw [if_pos h10, if_pos hA]
    exact ⟨rfl, rfl, rfl⟩
  · intro hA hSt hAmp
    unfold attackCond at hA
    simp only [EnvelopeAnalyzer.analyze]
    rw [if_pos h10, if_neg hA, if_pos ⟨hSt, hAmp⟩]
  · intro hA hNot hLow hRel
    unfold attackCond at hA
    simp only [EnvelopeAnalyzer.analyze]
    rw [if_pos h10, if_neg hA, if_neg hNot, if_pos hLow, if_pos hRel]
    exact ⟨rfl, rfl⟩
  · intro hRes
    by_cases hA : attackCond cur hist
    · exact Or.inr hA
    · left
      unfold attackCond at hA
      simp only [EnvelopeAnalyzer.analyze] at hRes
      rw [if_pos h10, if_neg hA] at hRes
      by_cases h2 : st.envelope_state = .attack ∧
          cur.amplitude < st.peak_amplitude * (9/10)
      · exact h2.1
      · rw [if_neg h2] at hRes
        by_cases h3 : cur.amplitude < 1/10
        · rw [if_pos h3] at hRes
          by_cases h4 : st.envelope_state ≠ .release
          · rw [if_pos h4] at hRes
            simp at hRes
          · rw [if_neg h4] at hRes
            exact hRes
        · rw [if_neg h3] at hRes
          exact hRes

/-- Witness for C6 amended at the concrete quiet-drop inputs. -/
theorem C6_amended_witness :
    (attackCond envQuietCur envQuietHist →
      (envAttackState.analyze envQuietCur envQuietHist).1.envelope_state = .attack ∧
      (envAttackState.analyze envQuietCur envQuietHist).1.peak_amplitude =
        envQuietCur.amplitude ∧
      (envAttackState.analyze envQuietCur envQuietHist).1.attack_start =
        envQuietCur.timestamp) ∧
    (¬ attackCond envQuietCur envQuietHist →
      envAttackState.envelope_state = .attack →
      envQuietCur.amplitude < envAttackState.peak_amplitude * (9/10) →
      (envAttackState.analyze envQuietCur envQuietHist).1.envelope_state = .decay) ∧
    (¬ attackCond envQuietCur envQuietHist →
      ¬ (envAttackState.envelope_state = .attack ∧
          envQuietCur.amplitude < envAttackState.peak_amplitude * (9/10)) →
      envQuietCur.amplitude < 1/10 →
      envAttackState.envelope_state ≠ .release →
      (envAttackState.analyze envQuietCur envQuietHist).1.envelope_state = .release ∧
      (envAttackState.analyze envQuietCur envQuietHist).1.release_start =
        envQuietCur.timestamp) ∧
    ((envAttackState.analyze envQuietCur envQuietHist).1.envelope_state = .attack →
      envAttackState.envelope_state = .attack ∨
        attackCond envQuietCur envQuietHist) ∧
    envRampPhases = [.release, .release, .release, .release, .release,
      .release, .release, .release, .release, .attack, .decay, .release] :=
  C6_amended envAttackState envQuietCur envQuietHist (by with_unfolding_all decide)

/-! ## Frame codec parse failure (C1) -/

/-- C1 counterexample: `parse("garbage")` and `parse("")` do NOT fail —
neither line contains a `KEY:VALUE` pair, every `dict.get` falls back to
its numeric default, and a default-valued record is returned. -/
theorem C1_counterexample :
    RawAudioData.from_string 0 "garbage" = some (defaultFrame 0) ∧
    RawAudioData.from_string 0 "" = some (defaultFrame 0) := by
  with_unfolding_all decide

/-- The parse fails exactly when one of the six field conversions
raises: a non-numeric value under one of the five float keys, or a
non-integer value under `BEAT`. -/
theorem from_string_eq_none_iff (now : ℚ) (s : String) :
    RawAudioData.from_string now s = none ↔
      fieldFloat (framePairs s) ampKey 0 = none ∨
      fieldFloat (framePairs s) freqKey 440 = none ∨
      fieldFloat (framePairs s) bassKey 0 = none ∨
      fieldFloat (framePairs s) midKey 0 = none ∨
      fieldFloat (framePairs s) trebleKey 0 = none ∨
      fieldBeat (framePairs s) = none := by
  simp only [RawAudioData.from_string]
  cases fieldFloat (framePairs s) ampKey 0 <;>
    cases fieldFloat (framePairs s) freqKey 440 <;>
    cases fieldFloat (framePairs s) bassKey 0 <;>
    cases fieldFloat (framePairs s) midKey 0 <;>
    cases fieldFloat (framePairs s) trebleKey 0 <;>
    cases fieldBeat (framePairs s) <;>
    simp

/-- C1 amended: a line whose value under any known key does not parse
as a number (`float` for `AMP`/`FREQ`/`BASS`/`MID`/`TREBLE`, `int` for
`BEAT`) yields a parse failure (`none`, the caught-`ValueError` path,
so no exception escapes); but a line in which no known key is present
at all (empty line, arbitrary garbage) yields the default-valued record
rather than a parse failure. -/
theorem C1_amended :
    (∀ (now : ℚ) (s : String) (k v : List Char),
      k ∈ [ampKey, freqKey, bassKey, midKey, trebleKey] →
      dictGet (framePairs s) k = some v → parsePyFloat v = none →
      RawAudioData.from_string now s = none) ∧
    (∀ (now : ℚ) (s : String) (v : List Char),
      dictGet (framePairs s) beatKey = some v → parsePyInt v = none →
      RawAudioData.from_string now s = none) ∧
    (∀ (now : ℚ) (s : String),
      (knownKeys.all (fun k => (dictGet (framePairs s) k).isNone)) = true →
      RawAudioData.from_string now s = some (defaultFrame now)) := by
  refine ⟨?_, ?_, ?_⟩
  · intro now s k v hk hv hp
    have hnone : ∀ d : ℚ, fieldFloat (framePairs s) k d = none := by
      intro d
      simp only [fieldFloat, hv, hp]
    rw [from_string_eq_none_iff]
    simp only [List.mem_cons, List.mem_singleton, List.not_mem_nil,
      or_false] at hk
    rcases hk with rfl | rfl | rfl | rfl | rfl
    · exact Or.inl (hnone 0)
    · exact Or.inr (Or.inl (hnone 440))
    · exact Or.inr (Or.inr (Or.inl (hnone 0)))
    · exact Or.inr (Or.inr (Or.inr (Or.inl (hnone 0))))
    · exact Or.inr (Or.inr (Or.inr (Or.inr (Or.inl (hnone 0)))))
  · intro now s v hv hp
    rw [from_string_eq_none_iff]
    refine Or.inr (Or.inr (Or.inr (Or.inr (Or.inr ?_))))
    simp only [fieldBeat, hv, hp, Option.map_none']
  · intro now s h
    rw [List.all_eq_true] at h
    have h1 := Option.isNone_iff_eq_none.mp (h ampKey (by simp [knownKeys]))
    have h2 := Option.isNone_iff_eq_none.mp (h freqKey (by simp [knownKeys]))
    have h3 := Option.isNone_iff_eq_none.mp (h bassKey (by simp [knownKeys]))
    have h4 := Option.isNone_iff_eq_none.mp (h midKey (by simp [knownKeys]))
    have h5 := Option.isNone_iff_eq_none.mp (h trebleKey (by simp [knownKeys]))
    have h6 := Option.isNone_iff_eq_none.mp (h beatKey (by simp [knownKeys]))
    simp only [RawAudioData.from_string, fieldFloat, fieldBeat,
      h1, h2, h3, h4, h5, h6, Option.some_bind, Option.map_some']
    simp [defaultFrame]

/-- Witness for C1 amended: non-numeric `AMP` and `FREQ` values fail
the parse, a non-integer `BEAT` value fails the parse, and a line with
no known key yields the default record. -/
theorem C1_amended_witness :
    RawAudioData.from_string 0 "AMP:abc" = none ∧
    RawAudioData.from_string 0 "FREQ:xyz" = none ∧
    RawAudioData.from_string 0 "BEAT:1.5" = none ∧
    RawAudioData.from_string 0 "garbage" = some (defaultFrame 0) :=
  ⟨C1_amended.1 0 "AMP:abc" ampKey ('a' :: 'b' :: 'c' :: [])
      (by with_unfolding_all decide) (by with_unfolding_all decide)
      (by with_unfolding_all decide),
   C1_amended.1 0 "FREQ:xyz" freqKey ('x' :: 'y' :: 'z' :: [])
      (by with_unfolding_all decide) (by with_unfolding_all decide)
      (by with_unfolding_all decide),
   C1_amended.2.1 0 "BEAT:1.5" ('1' :: '.' :: '5' :: [])
      (by with_unfolding_all decide) (by with_unfolding_all decide),
   C1_amended.2.2 0 "garbage" (by with_unfolding_all decide)⟩

/-! ## Frame codec field values (C2) -/

/-- C2 counterexample: `"AMP:-512"` is a well-formed `KEY:VALUE` line,
yet the parsed amplitude is `-512/1024 = -1/2 < 0` — no non-negativity
clamp exists in the code. -/
theorem C2_counterexample :
    RawAudioData.from_string 0 "AMP:-512" =
      some { amplitude := -(1/2), frequency_dominant := 440, bass_level := 0,
             mid_level := 0, treble_level := 0, beat_detected := false,
             timestamp := 0 } ∧
    (-(1/2) : ℚ) < 0 := by
  with_unfolding_all decide

/-- C2 amended: on every successful parse, each of the `AMP`, `BASS`,
`MID`, `TREBLE` values present in the line yields exactly its raw
numeric value divided by 1024 (no clamping, so the result is
non-negative precisely when the raw value is); missing keys take the
defaults (amplitude/bass/mid/treble 0, frequency 440, beat false);
`BEAT` is true iff its value parses to a nonzero integer; the
timestamp is the arrival time; and the spec's example line parses to
the stated record. -/
theorem C2_amended (now : ℚ) (s : String) (r : RawAudioData)
    (h : RawAudioData.from_string now s = some r) :
    (∀ v, dictGet (framePairs s) ampKey = some v →
      ∃ q, parsePyFloat v = some q ∧ r.amplitude = q / 1024 ∧
        (0 ≤ q → 0 ≤ r.amplitude)) ∧
    (dictGet (framePairs s) ampKey = none → r.amplitude = 0) ∧
    (∀ v, dictGet (framePairs s) freqKey = some v →
      ∃ q, parsePyFloat v = some q ∧ r.frequency_dominant = q) ∧
    (dictGet (framePairs s) freqKey = none → r.frequency_dominant = 440) ∧
    (∀ v, dictGet (framePairs s) bassKey = some v →
      ∃ q, parsePyFloat v = some q ∧ r.bass_level = q / 1024 ∧
        (0 ≤ q → 0 ≤ r.bass_level)) ∧
    (dictGet (framePairs s) bassKey = none → r.bass_level = 0) ∧
    (∀ v, dictGet (framePairs s) midKey = some v →
      ∃ q, parsePyFloat v = some q ∧ r.mid_level = q / 1024 ∧
        (0 ≤ q → 0 ≤ r.mid_level)) ∧
    (dictGet (framePairs s) midKey = none → r.mid_level = 0) ∧
    (∀ v, dictGet (framePairs s) trebleKey = some v →
      ∃ q, parsePyFloat v = some q ∧ r.treble_level = q / 1024 ∧
        (0 ≤ q → 0 ≤ r.treble_level)) ∧
    (dictGet (framePairs s) trebleKey = none → r.treble_level = 0) ∧
    (∀ v, dictGet (framePairs s) beatKey = some v →
      ∃ n : ℤ, parsePyInt v = some n ∧ (r.beat_detected = true ↔ n ≠ 0)) ∧
    (dictGet (framePairs s) beatKey = none → r.beat_detected = false) ∧
    r.timestamp = now ∧
    RawAudioData.from_string 0
        "AMP:512,FREQ:440,BASS:256,MID:128,TREBLE:64,BEAT:1" =
      some exampleFrame := by
  simp only [RawAudioData.from_string] at h
  rcases Option.bind_eq_some.mp h with ⟨amp, hamp, h⟩
  rcases Option.bind_eq_some.mp h with ⟨freq, hfreq, h⟩
  rcases Option.bind_eq_some.mp h with ⟨bass, hbass, h⟩
  rcases Option.bind_eq_some.mp h with ⟨mid, hmid, h⟩
  rcases Option.bind_eq_some.mp h with ⟨treb, htreb, h⟩
  rcases Option.map_eq_some'.mp h with ⟨beat, hbeat, h⟩
  subst h
  have floatField : ∀ (k : List Char) (d q : ℚ),
      fieldFloat (framePairs s) k d = some q →
      (∀ v, dictGet (framePairs s) k = some v →
        ∃ p, parsePyFloat v = some p ∧ q / 1024 = p / 1024 ∧
          (0 ≤ p → 0 ≤ q / 1024)) ∧
      (dictGet (framePairs s) k = none → q = d) := by
    intro k d q hq
    unfold fieldFloat at hq
    constructor
    · intro v hv
      rw [hv] at hq
      exact ⟨q, hq, rfl, fun h0 => div_nonneg h0 (by norm_num)⟩
    · intro hv
      rw [hv] at hq
      exact (Option.some.inj hq).symm
  refine ⟨?_, ?_, ?_, ?_, ?_, ?_, ?_, ?_, ?_, ?_, ?_, ?_, rfl,
    by with_unfolding_all decide⟩
  · exact (floatField ampKey 0 amp hamp).1
  · intro hv
    rw [(floatField ampKey 0 amp hamp).2 hv]
    exact zero_div _
  · intro v hv
    unfold fieldFloat at hfreq
    rw [hv] at hfreq
    exact ⟨freq, hfreq, rfl⟩
  · intro hv
    unfold fieldFloat at hfreq
    rw [hv] at hfreq
    exact (Option.some.inj hfreq).symm
  · exact (floatField bassKey 0 bass hbass).1
  · intro hv
    rw [(floatField bassKey 0 bass hbass).2 hv]
    exact zero_div _
  · exact (floatField midKey 0 mid hmid).1
  · intro hv
    rw [(floatField midKey 0 mid hmid).2 hv]
    exact zero_div _
  · exact (floatField trebleKey 0 treb htreb).1
  · intro hv
    rw [(floatField trebleKey 0 treb htreb).2 hv]
    exact zero_div _
  · intro v hv
    unfold fieldBeat at hbeat
    rw [hv] at hbeat
    rcases Option.map_eq_some'.mp hbeat with ⟨n, hn, hb⟩
    refine ⟨n, hn, ?_⟩
    rw [← hb]
    simp
  · intro hv
    unfold fieldBeat at hbeat
    rw [hv] at hbeat
    exact (Option.some.inj hbeat).symm

/-- Witness for C2 amended at the spec's example line for the `AMP`
field, plus the parsed timestamp. -/
theorem C2_amended_witness :
    (∃ q : ℚ, parsePyFloat ('5' :: '1' :: '2' :: []) = some q ∧
      exampleFrame.amplitude = q / 1024 ∧
      (0 ≤ q → 0 ≤ exampleFrame.amplitude)) ∧
    exampleFrame.timestamp = 0 :=
  ⟨(C2_amended 0 "AMP:512,FREQ:440,BASS:256,MID:128,TREBLE:64,BEAT:1"
      exampleFrame (by with_unfolding_all decide)).1 ('5' :: '1' :: '2' :: [])
      (by with_unfolding_all decide),
   (C2_amended 0 "AMP:512,FREQ:440,BASS:256,MID:128,TREBLE:64,BEAT:1"
      exampleFrame
      (by with_unfolding_all decide)).2.2.2.2.2.2.2.2.2.2.2.2.1⟩

end Sensory
